import Mathlib

/-!
Verification of the `react-3d-tag-sphere` tag-cloud component
(`src/TagCloudCanvas.tsx`) against its natural-language specification.

The component's numeric core is embedded shallowly over `ℝ`:
pure geometry (`distributeOnSphere`, the per-frame rotation, the
perspective scale and screen projection) becomes real-valued functions;
the per-frame mutable rotation state becomes explicit state passing
(`RotationState`, `rotationFrameStep`); the asynchronous image-loading
effect becomes a total function over an explicit load oracle
(`loadImages` over `loads : ℕ → Option Img`), where `Option.none`
stands for a rejected load and the `try/catch` around `Promise.all`
becomes a `match` that leaves the component state unchanged on failure.
JavaScript's stable comparator sort (`positions.sort((a, b) => b.z - a.z)`)
is embedded as an insertion sort by the descending-depth relation, which
is the unique stable order consistent with that comparator.
-/

namespace TagSphere

/-- The `Tag` interface of `TagCloudCanvas.tsx` (lines 5-16): an image
source, optional layout data filled in by `loadImages`, and the loaded
image handle. The image type is an opaque parameter `Img`; `Option`
models the optional (`?`) fields. -/
structure Tag (Img : Type) where
  src : String
  size : Option ℝ := none
  angle : Option ℝ := none
  phi : Option ℝ := none
  theta : Option ℝ := none
  x : Option ℝ := none
  y : Option ℝ := none
  z : Option ℝ := none
  speed : Option ℝ := none
  img : Option Img := none

/-- Result record of `distributeOnSphere` (lines 37-43). -/
structure SpherePosition where
  phi : ℝ
  theta : ℝ
  x : ℝ
  y : ℝ
  z : ℝ

/-- `distributeOnSphere` (lines 33-44): Fibonacci-sphere layout,
`phi = acos(-1 + 2*index/total)`, `theta = pi*(1+sqrt 5)*index`,
unit position `(cos theta * sin phi, sin theta * sin phi, cos phi)`. -/
noncomputable def distributeOnSphere (index total : ℕ) : SpherePosition :=
  let phi := Real.arccos (-1 + 2 * (index : ℝ) / (total : ℝ))
  let theta := Real.pi * (1 + Real.sqrt 5) * (index : ℝ)
  { phi := phi
    theta := theta
    x := Real.cos theta * Real.sin phi
    y := Real.sin theta * Real.sin phi
    z := Real.cos phi }

/-- Transcription of the spec's documented alternate-form construction
(spec section 4.1), written from the spec's words, to be compared with
the source's `distributeOnSphere`: latitude `acos(-1 + 2*i/N)`,
longitude in the equivalent `pi*(1+sqrt 5)*i` form, and unit position
`x = cos theta * sin phi`, `y = sin theta * sin phi`, `z = cos phi`. -/
noncomputable def specAltFibonacciLayout (i N : ℕ) : SpherePosition :=
  let phi := Real.arccos (-1 + 2 * (i : ℝ) / (N : ℝ))
  let theta := Real.pi * (1 + Real.sqrt 5) * (i : ℝ)
  { phi := phi
    theta := theta
    x := Real.cos theta * Real.sin phi
    y := Real.sin theta * Real.sin phi
    z := Real.cos phi }

/-- A point in 3-space, as consumed by the rotation step of `animate`. -/
structure Vec3 where
  x : ℝ
  y : ℝ
  z : ℝ

/-- The per-frame rotation transform of `animate` (lines 149-161):
rotation about the Y axis (`x2`, `z2`) followed by rotation about the
X axis (`y2`, `z3`). -/
noncomputable def rotatePoint (rotationX rotationY : ℝ) (v : Vec3) : Vec3 :=
  let sinRotX := Real.sin rotationX
  let cosRotX := Real.cos rotationX
  let sinRotY := Real.sin rotationY
  let cosRotY := Real.cos rotationY
  let x2 := v.x * cosRotY - v.z * sinRotY
  let z2 := v.x * sinRotY + v.z * cosRotY
  let y2 := v.y * cosRotX - z2 * sinRotX
  let z3 := v.y * sinRotX + z2 * cosRotX
  { x := x2, y := y2, z := z3 }

/-- The perspective scale factor of `animate` (line 163):
`scale = 0.6 + (radius / (radius + z3 * radius)) * 0.4`. -/
noncomputable def scaleOf (radius z3 : ℝ) : ℝ :=
  0.6 + radius / (radius + z3 * radius) * 0.4

/-- For a positive radius and a depth other than `-1` the scale factor
collapses to `0.6 + 0.4 / (1 + z3)`: the radius cancels. -/
theorem scaleOf_eq (radius z3 : ℝ) (hr : radius ≠ 0) (hz : 1 + z3 ≠ 0) :
    scaleOf radius z3 = 0.6 + 0.4 / (1 + z3) := by
  unfold scaleOf
  rw [show radius + z3 * radius = radius * (1 + z3) by ring]
  field_simp
  ring

/-- Norm of the point produced by the layout formula: for any index and
total, `x^2 + y^2 + z^2 = (sin phi)^2 * ((cos theta)^2 + (sin theta)^2)
+ (cos phi)^2 = 1`. -/
theorem distributeOnSphere_norm (index total : ℕ) :
    (distributeOnSphere index total).x ^ 2 + (distributeOnSphere index total).y ^ 2 +
      (distributeOnSphere index total).z ^ 2 = 1 := by
  unfold distributeOnSphere
  have ht := Real.sin_sq_add_cos_sq (Real.pi * (1 + Real.sqrt 5) * (index : ℝ))
  have hp := Real.sin_sq_add_cos_sq (Real.arccos (-1 + 2 * (index : ℝ) / (total : ℝ)))
  nlinarith [ht, hp]

/-- Claim C4: for every total `N ≥ 1` and index `i < N`, the layout
generator computes exactly `phi = acos(-1 + 2*i/N)`,
`theta = pi*(1+sqrt 5)*i` and the unit position
`(cos theta * sin phi, sin theta * sin phi, cos phi)` — it implements
the spec's documented alternate-form Fibonacci construction as a pure
function of `(i, N)`. -/
theorem distributeOnSphere_matches_spec (N i : ℕ) (hN : 1 ≤ N) (hi : i < N) :
    distributeOnSphere i N = specAltFibonacciLayout i N := rfl

/-- Witness for C4 at `N = 4`, `i = 1`. -/
theorem distributeOnSphere_matches_spec_witness :
    distributeOnSphere 1 4 = specAltFibonacciLayout 1 4 :=
  distributeOnSphere_matches_spec 4 1 (by norm_num) (by norm_num)

/-- Claim C5: for all `N ≥ 1` and indices `i < N`, the generated point
lies exactly on the unit sphere: `x^2 + y^2 + z^2 = 1`. -/
theorem unitPosition_on_unit_sphere (N i : ℕ) (hN : 1 ≤ N) (hi : i < N) :
    (distributeOnSphere i N).x ^ 2 + (distributeOnSphere i N).y ^ 2 +
      (distributeOnSphere i N).z ^ 2 = 1 :=
  distributeOnSphere_norm i N

/-- Witness for C5 at `N = 1`, `i = 0`. -/
theorem unitPosition_on_unit_sphere_witness :
    (distributeOnSphere 0 1).x ^ 2 + (distributeOnSphere 0 1).y ^ 2 +
      (distributeOnSphere 0 1).z ^ 2 = 1 :=
  unitPosition_on_unit_sphere 1 0 (by norm_num) (by norm_num)

/-- Claim C6: the per-frame rotation (about Y, then about X) is
norm-preserving: a unit input vector stays of norm one for any angles
`rotationX`, `rotationY`. -/
theorem rotatePoint_norm_preserving (rotationX rotationY : ℝ) (v : Vec3)
    (h : v.x ^ 2 + v.y ^ 2 + v.z ^ 2 = 1) :
    (rotatePoint rotationX rotationY v).x ^ 2 + (rotatePoint rotationX rotationY v).y ^ 2 +
      (rotatePoint rotationX rotationY v).z ^ 2 = 1 := by
  have hX := Real.sin_sq_add_cos_sq rotationX
  have hY := Real.sin_sq_add_cos_sq rotationY
  simp only [rotatePoint]
  linear_combination (v.y ^ 2 + (v.x * Real.sin rotationY + v.z * Real.cos rotationY) ^ 2) * hX +
    (v.x ^ 2 + v.z ^ 2) * hY + h

/-- Witness for C6 at `v = (1, 0, 0)` and angles `(0, 0)`. -/
theorem rotatePoint_norm_preserving_witness :
    (rotatePoint 0 0 ⟨1, 0, 0⟩).x ^ 2 + (rotatePoint 0 0 ⟨1, 0, 0⟩).y ^ 2 +
      (rotatePoint 0 0 ⟨1, 0, 0⟩).z ^ 2 = 1 :=
  rotatePoint_norm_preserving 0 0 ⟨1, 0, 0⟩ (by norm_num)

/-- Claim C1 fails on the code: the scale factor is not non-decreasing
in the rotated depth. At `radius = 120` the depths `0 ≤ 1` give
`scaleOf 120 0 = 1` but `scaleOf 120 1 = 0.8`. -/
theorem scale_monotone_cex :
    (0 : ℝ) ≤ 1 ∧ ¬ scaleOf 120 0 ≤ scaleOf 120 1 := by
  constructor
  · norm_num
  · unfold scaleOf
    norm_num

/-- Claim C1 (amended): for a positive radius, over the depth range
`(-1, 1]` on which the denominator `radius + z' * radius` is nonzero,
the scale factor is monotone non-increasing in the rotated depth `z'`:
depths `z1' ≤ z2'` give `scaleOf z2' ≤ scaleOf z1'` — larger `z'`
(drawn earlier in the descending depth sort, i.e. farther) scales
down, and smaller `z'` scales up. -/
theorem scale_antitone_in_depth (radius z1 z2 : ℝ) (hr : 0 < radius)
    (h1 : -1 < z1) (h12 : z1 ≤ z2) (h2 : z2 ≤ 1) :
    scaleOf radius z2 ≤ scaleOf radius z1 := by
  have hz1 : (0 : ℝ) < 1 + z1 := by linarith
  have hz2 : (0 : ℝ) < 1 + z2 := by linarith
  rw [scaleOf_eq radius z1 (ne_of_gt hr) (ne_of_gt hz1),
    scaleOf_eq radius z2 (ne_of_gt hr) (ne_of_gt hz2)]
  have hdiv : (0.4 : ℝ) / (1 + z2) ≤ 0.4 / (1 + z1) := by
    gcongr
  linarith

/-- Witness for the amended C1 at `radius = 120`, `z1 = 0`, `z2 = 1`. -/
theorem scale_antitone_in_depth_witness :
    scaleOf 120 1 ≤ scaleOf 120 0 :=
  scale_antitone_in_depth 120 0 1 (by norm_num) (by norm_num) (by norm_num) (by norm_num)

/-- Claim C2 fails on the code: the scale factor is not bounded within
roughly `0.4`–`1.0` over the depth range `[-1, 1]`. At `radius = 120`
and depth `z' = -1/2` (inside the range) the scale is `1.4 > 1`. -/
theorem scale_bounds_cex :
    (-1 : ℝ) ≤ -1 / 2 ∧ (-1 / 2 : ℝ) ≤ 1 ∧ scaleOf 120 (-1 / 2) = 1.4 ∧
      ¬ scaleOf 120 (-1 / 2) ≤ 1 := by
  refine ⟨by norm_num, by norm_num, ?_, ?_⟩ <;>
    · unfold scaleOf
      norm_num

/-- Claim C2 (amended): for a positive radius, the scale factor is
well-defined and strictly positive on the depth range `(-1, 1]` (at
`z' = -1` the denominator `radius + z' * radius` is zero), with lower
bound `0.8`, attained at `z' = 1`; it is not bounded above by `1.0` —
it grows without bound as `z'` approaches `-1` (e.g. `1.4` at
`z' = -1/2`). -/
theorem scale_positive_and_bounded_below (radius z3 : ℝ) (hr : 0 < radius)
    (h1 : -1 < z3) (h2 : z3 ≤ 1) :
    0 < scaleOf radius z3 ∧ 0.8 ≤ scaleOf radius z3 := by
  have hz : (0 : ℝ) < 1 + z3 := by linarith
  rw [scaleOf_eq radius z3 (ne_of_gt hr) (ne_of_gt hz)]
  have hle : (1 : ℝ) + z3 ≤ 2 := by linarith
  have hdiv : (0.4 : ℝ) / 2 ≤ 0.4 / (1 + z3) := by
    gcongr
  constructor <;> linarith [div_pos (by norm_num : (0.4 : ℝ) > 0) hz]

/-- Witness for the amended C2 at `radius = 120`, `z' = 1/2`. -/
theorem scale_positive_and_bounded_below_witness :
    0 < scaleOf 120 (1 / 2) ∧ 0.8 ≤ scaleOf 120 (1 / 2) :=
  scale_positive_and_bounded_below 120 (1 / 2) (by norm_num) (by norm_num) (by norm_num)

/-- The mutable rotation variables of the animation effect
(lines 89-92): current and target rotation about each axis. -/
structure RotationState where
  rotationX : ℝ
  rotationY : ℝ
  targetRotationX : ℝ
  targetRotationY : ℝ

/-- The per-frame rotation update of `animate` (lines 134-141): each
current angle moves a tenth of the way to its target, then, when both
targets are below `0.01` in magnitude, the idle increment `0.005` is
added to the Y rotation. -/
noncomputable def rotationFrameStep (s : RotationState) : RotationState :=
  let rotationX := s.rotationX + (s.targetRotationX - s.rotationX) * 0.1
  let rotationY := s.rotationY + (s.targetRotationY - s.rotationY) * 0.1
  let rotationY :=
    if |s.targetRotationX| < 0.01 ∧ |s.targetRotationY| < 0.01 then rotationY + 0.005
    else rotationY
  { s with rotationX := rotationX, rotationY := rotationY }

/-- Claim C9 fails on the code: on frames where the idle increment is
applied, the Y rotation's distance to its target increases. From the
all-zero state (current `0`, target `0`) the update moves `rotationY`
to `0.005`, distance `0.005 > 0` from the target. -/
theorem rotation_step_no_overshoot_cex :
    ¬ |(rotationFrameStep ⟨0, 0, 0, 0⟩).rotationY - (0 : ℝ)| ≤ |(0 : ℝ) - 0| := by
  unfold rotationFrameStep
  norm_num

/-- Claim C9 (amended): the interpolation `current +=
(target - current) * 0.1` itself never overshoots: the updated X
rotation always lies between the old value and the target and its
distance to the target does not increase, and the same holds for the
Y rotation on frames where the idle increment is not applied (some
target is at least `0.01` in magnitude); on idle frames `rotationY`
additionally gains the constant `0.005`, which can move it away from
its target. -/
theorem rotation_step_interpolates (s : RotationState) :
    (min s.rotationX s.targetRotationX ≤ (rotationFrameStep s).rotationX ∧
      (rotationFrameStep s).rotationX ≤ max s.rotationX s.targetRotationX ∧
      |(rotationFrameStep s).rotationX - s.targetRotationX| ≤
        |s.rotationX - s.targetRotationX|) ∧
    (¬ (|s.targetRotationX| < 0.01 ∧ |s.targetRotationY| < 0.01) →
      min s.rotationY s.targetRotationY ≤ (rotationFrameStep s).rotationY ∧
      (rotationFrameStep s).rotationY ≤ max s.rotationY s.targetRotationY ∧
      |(rotationFrameStep s).rotationY - s.targetRotationY| ≤
        |s.rotationY - s.targetRotationY|) := by
  constructor
  · have hx : (rotationFrameStep s).rotationX =
        s.rotationX + (s.targetRotationX - s.rotationX) * 0.1 := rfl
    rw [hx]
    refine ⟨?_, ?_, ?_⟩
    · rcases le_total s.rotationX s.targetRotationX with h | h <;>
        simp [min_def, h] <;> nlinarith
    · rcases le_total s.rotationX s.targetRotationX with h | h <;>
        simp [max_def, h] <;> nlinarith
    · rw [show s.rotationX + (s.targetRotationX - s.rotationX) * 0.1 - s.targetRotationX =
        0.9 * (s.rotationX - s.targetRotationX) by ring, abs_mul]
      nlinarith [abs_nonneg (s.rotationX - s.targetRotationX),
        abs_of_pos (show (0 : ℝ) < 0.9 by norm_num)]
  · intro hidle
    have hy : (rotationFrameStep s).rotationY =
        s.rotationY + (s.targetRotationY - s.rotationY) * 0.1 := by
      unfold rotationFrameStep
      simp [hidle]
    rw [hy]
    refine ⟨?_, ?_, ?_⟩
    · rcases le_total s.rotationY s.targetRotationY with h | h <;>
        simp [min_def, h] <;> nlinarith
    · rcases le_total s.rotationY s.targetRotationY with h | h <;>
        simp [max_def, h] <;> nlinarith
    · rw [show s.rotationY + (s.targetRotationY - s.rotationY) * 0.1 - s.targetRotationY =
        0.9 * (s.rotationY - s.targetRotationY) by ring, abs_mul]
      nlinarith [abs_nonneg (s.rotationY - s.targetRotationY),
        abs_of_pos (show (0 : ℝ) < 0.9 by norm_num)]

/-- Witness exercising the amended C9 at the state
`(rotationX, rotationY, targets) = (0, 0, 1, 1)`, where the idle
condition is false. -/
theorem rotation_step_interpolates_witness :
    ¬ (|(1 : ℝ)| < 0.01 ∧ |(1 : ℝ)| < 0.01) ∧
      (min (0 : ℝ) 1 ≤ (rotationFrameStep ⟨0, 0, 1, 1⟩).rotationX ∧
        (rotationFrameStep ⟨0, 0, 1, 1⟩).rotationX ≤ max (0 : ℝ) 1 ∧
        |(rotationFrameStep ⟨0, 0, 1, 1⟩).rotationX - (1 : ℝ)| ≤ |(0 : ℝ) - 1|) :=
  ⟨by norm_num, ((rotation_step_interpolates ⟨0, 0, 1, 1⟩).1)⟩

/-- The `handleMouseMove` listener (lines 94-102): normalizes the
pointer position relative to the surface center and maps it to the
target rotations `(targetRotationX, targetRotationY) =
(mouseY * pi * 0.5, mouseX * pi * 0.5)`. -/
noncomputable def handleMouseMove (width height clientX clientY rectLeft rectTop : ℝ) :
    ℝ × ℝ :=
  let mouseX := (clientX - rectLeft - width / 2) / (width / 2)
  let mouseY := (clientY - rectTop - height / 2) / (height / 2)
  (mouseY * Real.pi * 0.5, mouseX * Real.pi * 0.5)

/-- A surface-relative offset `0 ≤ d ≤ w` normalizes to at most one in
magnitude (with Lean's `x / 0 = 0` convention covering `w = 0`). -/
theorem norm_offset_abs_le_one (d w : ℝ) (h0 : 0 ≤ d) (hw : d ≤ w) :
    |(d - w / 2) / (w / 2)| ≤ 1 := by
  rcases eq_or_lt_of_le (le_trans h0 hw) with h | h
  · have hd : d = 0 := le_antisymm (h ▸ hw) h0
    simp [← h, hd]
  · rw [abs_div, abs_of_pos (by linarith : (0 : ℝ) < w / 2)]
    rw [div_le_one (by linarith : (0 : ℝ) < w / 2)]
    rw [abs_le]
    constructor <;> linarith

/-- Claim C10: a pointer sample inside the drawing surface yields
target rotations of magnitude at most a quarter turn:
`|targetRotationX| ≤ pi / 2` and `|targetRotationY| ≤ pi / 2`. -/
theorem mouse_move_targets_bounded (width height clientX clientY rectLeft rectTop : ℝ)
    (hx0 : 0 ≤ clientX - rectLeft) (hxw : clientX - rectLeft ≤ width)
    (hy0 : 0 ≤ clientY - rectTop) (hyh : clientY - rectTop ≤ height) :
    |(handleMouseMove width height clientX clientY rectLeft rectTop).1| ≤ Real.pi / 2 ∧
      |(handleMouseMove width height clientX clientY rectLeft rectTop).2| ≤ Real.pi / 2 := by
  have hmx := norm_offset_abs_le_one (clientX - rectLeft) width hx0 hxw
  have hmy := norm_offset_abs_le_one (clientY - rectTop) height hy0 hyh
  have hpi : (0 : ℝ) ≤ Real.pi := le_of_lt Real.pi_pos
  unfold handleMouseMove
  constructor
  · have : |(clientY - rectTop - height / 2) / (height / 2) * Real.pi * 0.5| =
        |(clientY - rectTop - height / 2) / (height / 2)| * Real.pi * 0.5 := by
      rw [abs_mul, abs_mul, abs_of_nonneg hpi]
      norm_num
    rw [this]
    nlinarith [hmy, hpi]
  · have : |(clientX - rectLeft - width / 2) / (width / 2) * Real.pi * 0.5| =
        |(clientX - rectLeft - width / 2) / (width / 2)| * Real.pi * 0.5 := by
      rw [abs_mul, abs_mul, abs_of_nonneg hpi]
      norm_num
    rw [this]
    nlinarith [hmx, hpi]

/-- Witness for C10: a pointer at `(300, 100)` on a `400 × 400` surface
at origin. -/
theorem mouse_move_targets_bounded_witness :
    |(handleMouseMove 400 400 300 100 0 0).1| ≤ Real.pi / 2 ∧
      |(handleMouseMove 400 400 300 100 0 0).2| ≤ Real.pi / 2 :=
  mouse_move_targets_bounded 400 400 300 100 0 0 (by norm_num) (by norm_num)
    (by norm_num) (by norm_num)

/-- The per-tag record built by the `map` inside `animate`
(lines 144-168): `{ tag, x: screenX, y: screenY, z: z3, scale }`. -/
structure Projected (Img : Type) where
  tag : Tag Img
  x : ℝ
  y : ℝ
  z : ℝ
  scale : ℝ

/-- The body of the `map` inside `animate` (lines 145-168): read the
tag's angles (`?? 0`), advance `theta` by `time * 0.2`, rebuild the
unit position, rotate it, and derive the perspective scale and screen
coordinates. -/
noncomputable def projectTag {Img : Type} (radius rotationX rotationY time : ℝ)
    (tag : Tag Img) : Projected Img :=
  let phi := (tag.phi).getD 0
  let theta := (tag.theta).getD 0 + time * 0.2
  let p := rotatePoint rotationX rotationY
    { x := Real.cos theta * Real.sin phi
      y := Real.sin theta * Real.sin phi
      z := Real.cos phi }
  let scale := scaleOf radius p.z
  { tag := tag, x := p.x * radius * scale, y := p.y * radius * scale, z := p.z, scale := scale }

/-- The depth-descending order of the comparator
`(a, b) => b.z - a.z` (line 169): `a` may come before `b` exactly when
`b.z ≤ a.z`. -/
def depthDesc {Img : Type} (a b : Projected Img) : Prop := b.z ≤ a.z

noncomputable instance {Img : Type} : DecidableRel (@depthDesc Img) :=
  fun a b => inferInstanceAs (Decidable (b.z ≤ a.z))

instance {Img : Type} : IsTotal (Projected Img) (@depthDesc Img) :=
  ⟨fun a b => le_total b.z a.z⟩

instance {Img : Type} : IsTrans (Projected Img) (@depthDesc Img) :=
  ⟨fun _ _ _ h1 h2 => le_trans h2 h1⟩

/-- The per-frame sort `positions.sort((a, b) => b.z - a.z)`
(line 169). JavaScript's `Array.prototype.sort` is specified to be
stable and consistent with the comparator, which determines its output
uniquely; insertion sort by `depthDesc` is that stable sort. -/
noncomputable def sortByDepth {Img : Type} (l : List (Projected Img)) :
    List (Projected Img) :=
  List.insertionSort depthDesc l

/-- Claim C3: the per-frame depth sort is a permutation of its input
in which every pair (in particular every adjacent pair) `(a, b)` with
`a` before `b` satisfies `depth(a) ≥ depth(b)`, and it is stable:
records with equal depth keep their relative input order. -/
theorem sortByDepth_sorted_and_stable {Img : Type} (l : List (Projected Img)) :
    (sortByDepth l).Pairwise (fun a b => b.z ≤ a.z) ∧
      (sortByDepth l).Perm l ∧
      ∀ a b : Projected Img, a.z = b.z → List.Sublist [a, b] l →
        List.Sublist [a, b] (sortByDepth l) :=
  ⟨List.sorted_insertionSort depthDesc l,
    List.perm_insertionSort depthDesc l,
    fun _ _ hz hsub => List.pair_sublist_insertionSort hz.ge hsub⟩

/-- The component state set by the loading effect (lines 27-28):
`initializedTags` and the `imagesLoaded` flag. -/
structure CloudState (Img : Type) where
  initializedTags : List (Tag Img)
  imagesLoaded : Bool

/-- The initial component state: no tags, images not loaded. -/
def initialCloudState (Img : Type) : CloudState Img := ⟨[], false⟩

/-- The record returned for one successfully loaded tag (lines 58-66):
the original tag with its image, its sphere position from
`distributeOnSphere`, the normalized size
`min(tag.size ?? 40, min(width, height) * 0.15)`, and `speed = 1`. -/
noncomputable def initTag {Img : Type} (width height : ℝ) (total index : ℕ)
    (tag : Tag Img) (img : Img) : Tag Img :=
  let position := distributeOnSphere index total
  { tag with
    img := some img
    phi := some position.phi
    theta := some position.theta
    x := some position.x
    y := some position.y
    z := some position.z
    size := some (min ((tag.size).getD 40) (min width height * 0.15))
    speed := some 1 }

/-- The `Promise.all` over `tags.map(...)` (lines 49-68), embedded
over a load oracle `loads : ℕ → Option Img` (`none` = the image's
`onerror` fired): all loads must succeed or the whole batch fails. -/
noncomputable def loadTagsFrom {Img : Type} (width height : ℝ) (loads : ℕ → Option Img)
    (total : ℕ) : ℕ → List (Tag Img) → Option (List (Tag Img))
  | _, [] => some []
  | index, tag :: rest =>
    (loads index).bind fun img =>
      (loadTagsFrom width height loads total (index + 1) rest).map fun out =>
        initTag width height total index tag img :: out

/-- `loadImages` (lines 46-74) without its effect part: the batch over
all tags, indices starting at `0` and `total = tags.length`. -/
noncomputable def loadImages {Img : Type} (width height : ℝ) (loads : ℕ → Option Img)
    (tags : List (Tag Img)) : Option (List (Tag Img)) :=
  loadTagsFrom width height loads tags.length 0 tags

/-- The effect of `loadImages` on the component state: on success
`setInitializedTags` and `setImagesLoaded(true)` (lines 69-70); on any
rejection the `catch` (lines 71-73) only logs, leaving the state
unchanged. -/
noncomputable def runLoadImages {Img : Type} (width height : ℝ) (loads : ℕ → Option Img)
    (tags : List (Tag Img)) (st : CloudState Img) : CloudState Img :=
  match loadImages width height loads tags with
  | some loadedTags => { initializedTags := loadedTags, imagesLoaded := true }
  | none => st

/-- The tags drawn in one frame: the animation effect returns before
drawing unless `imagesLoaded` (line 80), and `drawTag` returns early
for a tag with no image (line 114); otherwise every projected,
depth-sorted tag is drawn (lines 144-178). -/
noncomputable def frameDrawnTags {Img : Type} (radius rotationX rotationY time : ℝ)
    (st : CloudState Img) : List (Tag Img) :=
  if st.imagesLoaded then
    ((sortByDepth (st.initializedTags.map
        (projectTag radius rotationX rotationY time))).filter
      (fun p => (p.tag.img).isSome)).map (fun p => p.tag)
  else []

/-- Load oracle for the failure scenario: the third of five image
loads rejects, the rest resolve. -/
def cexLoads : ℕ → Option Unit := fun index => if index = 2 then none else some ()

/-- Five tags for the failure scenario. -/
def cexTags : List (Tag Unit) :=
  [{ src := "a" }, { src := "b" }, { src := "c" }, { src := "d" }, { src := "e" }]

/-- A batch fails as soon as one load in it fails. -/
theorem loadTagsFrom_eq_none {Img : Type} (width height : ℝ) (loads : ℕ → Option Img)
    (total : ℕ) (l : List (Tag Img)) (start : ℕ)
    (h : ∃ i, i < l.length ∧ loads (start + i) = none) :
    loadTagsFrom width height loads total start l = none := by
  induction l generalizing start with
  | nil =>
    obtain ⟨i, hi, _⟩ := h
    simp at hi
  | cons t rest ih =>
    obtain ⟨i, hi, hnone⟩ := h
    cases i with
    | zero =>
      rw [Nat.add_zero] at hnone
      unfold loadTagsFrom
      rw [hnone]
      rfl
    | succ j =>
      have hrest : loadTagsFrom width height loads total (start + 1) rest = none := by
        refine ih (start + 1) ⟨j, ?_, ?_⟩
        · simpa using Nat.lt_of_succ_lt_succ hi
        · rw [show start + 1 + j = start + (j + 1) by omega]
          exact hnone
      unfold loadTagsFrom
      rw [hrest]
      cases loads start <;> rfl

/-- Claim C8 fails on the code: with five tags of which exactly one
(index 2) fails to load, `Promise.all` rejects the whole batch, the
`catch` leaves the state untouched, and the rendered frame contains
zero drawn tags, not four. -/
theorem one_failed_load_cex :
    cexTags.length = 5 ∧ cexLoads 2 = none ∧
      (frameDrawnTags 120 0 0 0
        (runLoadImages 400 400 cexLoads cexTags (initialCloudState Unit))).length = 0 ∧
      (frameDrawnTags 120 0 0 0
        (runLoadImages 400 400 cexLoads cexTags (initialCloudState Unit))).length ≠ 4 := by
  have hload : loadImages 400 400 cexLoads cexTags = none := by
    refine loadTagsFrom_eq_none 400 400 cexLoads cexTags.length cexTags 0 ⟨2, ?_, rfl⟩
    simp [cexTags]
  have hrun : runLoadImages 400 400 cexLoads cexTags (initialCloudState Unit) =
      initialCloudState Unit := by
    unfold runLoadImages
    rw [hload]
  rw [hrun]
  refine ⟨rfl, rfl, ?_, ?_⟩ <;> simp [frameDrawnTags, initialCloudState]

/-- Claim C8 (amended): when any one of the tags' resource loads fails
(here one of five), the reference fail-the-whole-batch policy applies:
the rejection is caught (the model is a total function — no exception
escapes), the component state is left unchanged, and the resulting
frame draws no tags at all rather than the four that loaded. -/
theorem failed_load_aborts_batch {Img : Type}
    (width height radius rotationX rotationY time : ℝ)
    (loads : ℕ → Option Img) (tags : List (Tag Img))
    (h : ∃ i, i < tags.length ∧ loads i = none) :
    runLoadImages width height loads tags (initialCloudState Img) = initialCloudState Img ∧
      frameDrawnTags radius rotationX rotationY time
        (runLoadImages width height loads tags (initialCloudState Img)) = [] := by
  have hload : loadImages width height loads tags = none := by
    refine loadTagsFrom_eq_none width height loads tags.length tags 0 ?_
    obtain ⟨i, hi, hnone⟩ := h
    exact ⟨i, hi, by simpa using hnone⟩
  have hrun : runLoadImages width height loads tags (initialCloudState Img) =
      initialCloudState Img := by
    unfold runLoadImages
    rw [hload]
  exact ⟨hrun, by rw [hrun]; simp [frameDrawnTags, initialCloudState]⟩

/-- Witness for the amended C8 at the concrete five-tag scenario with
the third load failing. -/
theorem failed_load_aborts_batch_witness :
    runLoadImages 400 400 cexLoads cexTags (initialCloudState Unit) =
        initialCloudState Unit ∧
      frameDrawnTags 120 0 0 0
        (runLoadImages 400 400 cexLoads cexTags (initialCloudState Unit)) = [] :=
  failed_load_aborts_batch 400 400 120 0 0 0 cexLoads cexTags
    ⟨2, by simp [cexTags], rfl⟩

/-- The canvas radius for a 400 × 400 surface (line 88):
`min(width, height) * 0.3`. -/
noncomputable def scenarioRadius : ℝ := min (400 : ℝ) 400 * 0.3

/-- The `i`-th of four tags in the `N = 4` scenario, carrying the
layout angles `loadImages` assigns and a loaded image. -/
noncomputable def scenarioTag (i : ℕ) : Tag Unit :=
  { src := ""
    phi := some (distributeOnSphere i 4).phi
    theta := some (distributeOnSphere i 4).theta
    img := some () }

/-- With both rotation angles `0` and `time = 0` the projection
reduces to the unrotated unit position scaled by
`radius * scaleOf radius (cos phi)`. -/
theorem projectTag_zero_eq {Img : Type} (radius : ℝ) (tag : Tag Img) :
    projectTag radius 0 0 0 tag =
      { tag := tag
        x := Real.cos ((tag.theta).getD 0) * Real.sin ((tag.phi).getD 0) * radius *
          scaleOf radius (Real.cos ((tag.phi).getD 0))
        y := Real.sin ((tag.theta).getD 0) * Real.sin ((tag.phi).getD 0) * radius *
          scaleOf radius (Real.cos ((tag.phi).getD 0))
        z := Real.cos ((tag.phi).getD 0)
        scale := scaleOf radius (Real.cos ((tag.phi).getD 0)) } := by
  simp [projectTag, rotatePoint]

/-- Claim C7: the code fails the scenario's screen-coordinate bound at
tag index 0. There `phi = acos(-1) = pi`, so with both rotation angles
`0` the projected depth is exactly `z' = -1`, and the scale expression
of line 163 divides by zero: its denominator `radius + z' * radius`
is `0`. In the program this makes the scale `Infinity` and the screen
coordinate `x2 * radius * scale` non-finite (`Math.sin(Math.PI)` is a
positive double of about `1.22e-16`, not `0`), far outside the
claimed `[-140, 140]`. -/
theorem scenario_pole_scale_division_by_zero :
    (projectTag scenarioRadius 0 0 0 (scenarioTag 0)).z = -1 ∧
      scenarioRadius + (projectTag scenarioRadius 0 0 0 (scenarioTag 0)).z * scenarioRadius = 0 := by
  have hphi : (distributeOnSphere 0 4).phi = Real.pi := by
    simp only [distributeOnSphere]
    norm_num [Real.arccos_neg_one]
  have hz : (projectTag scenarioRadius 0 0 0 (scenarioTag 0)).z = -1 := by
    rw [projectTag_zero_eq]
    simp only [scenarioTag, Option.getD_some]
    rw [hphi, Real.cos_pi]
  exact ⟨hz, by rw [hz]; ring⟩

end TagSphere
